import Mathlib

/-!
# Verification of the Sega CPMM quoting adapter

Shallow embedding of the Sega constant-product AMM adapter
(`okx/src/sega.rs`) and the on-chain pool state definitions
(`sega-cp-swap/src/pool.rs`), together with proofs of the specified
properties of `quote`, `fetch_pool_metadata`, `fetch_pool_addresses`,
`get_status_by_bit` and `vault_amount_without_fee`.

Machine integers are modelled as `Nat` with explicit `% 2^w` where the
source wraps; fallible operations return `Option`/`Except`; a Rust panic
(an `unwrap` of a failed result) is the `Outcome.panic` value.  `f64`
values are modelled exactly as rationals (every finite double is a
rational; rounding of `u64 -> f64` casts above `2^53` is not modelled, no
property below depends on it).
-/

set_option maxRecDepth 100000

namespace SegaOkx

/-- `2^64`, the modulus of `u64` arithmetic. -/
def U64_MOD : Nat := 2 ^ 64

/-- `2^128`, the modulus of `u128` arithmetic. -/
def U128_MOD : Nat := 2 ^ 128

/-- An on-chain address (Solana pubkey): an opaque 32-byte identifier.
The spec treats addresses as "an opaque fixed-length byte identifier";
the base58 stringification used for map keys in the source is injective
and is not modelled separately. -/
abbrev Addr := List Nat

/-- Result of running a piece of Rust code that may `panic`. -/
inductive Outcome (α : Type) where
  | panic
  | ok (a : α)
deriving DecidableEq, Repr

instance {ε α : Type} [DecidableEq ε] [DecidableEq α] : DecidableEq (Except ε α) := fun x y =>
  match x, y with
  | .error a, .error b =>
    if h : a = b then isTrue (congrArg Except.error h)
    else isFalse (fun hh => h (Except.error.inj hh))
  | .error _, .ok _ => isFalse (fun hh => Except.noConfusion hh)
  | .ok _, .error _ => isFalse (fun hh => Except.noConfusion hh)
  | .ok a, .ok b =>
    if h : a = b then isTrue (congrArg Except.ok h)
    else isFalse (fun hh => h (Except.ok.inj hh))

/-- `u64::checked_sub`: `none` on underflow, never wrapping. -/
def u64checked_sub (a b : Nat) : Option Nat :=
  if a < b then none else some (a - b)

/-! ## `sega-cp-swap/src/pool.rs` -/

/-- `PoolState` from `sega-cp-swap/src/pool.rs` (field for field). -/
structure PoolState where
  amm_config : Addr
  pool_creator : Addr
  token_0_vault : Addr
  token_1_vault : Addr
  lp_mint : Addr
  token_0_mint : Addr
  token_1_mint : Addr
  token_0_program : Addr
  token_1_program : Addr
  observation_key : Addr
  auth_bump : Nat
  /-- bit0: disable deposit, bit1: disable withdraw, bit2: disable swap -/
  status : Nat
  lp_mint_decimals : Nat
  mint_0_decimals : Nat
  mint_1_decimals : Nat
  lp_supply : Nat
  protocol_fees_token_0 : Nat
  protocol_fees_token_1 : Nat
  fund_fees_token_0 : Nat
  fund_fees_token_1 : Nat
  open_time : Nat
  recent_epoch : Nat
  padding : List Nat
deriving DecidableEq, Repr

/-- `PoolStatusBitIndex` from `pool.rs`. -/
inductive PoolStatusBitIndex where
  | Deposit
  | Withdraw
  | Swap
deriving DecidableEq, Repr

/-- The numeric value of a `PoolStatusBitIndex` (`bit as u8` in the
source: enum discriminants 0, 1, 2). -/
def PoolStatusBitIndex.asU8 : PoolStatusBitIndex → Nat
  | .Deposit => 0
  | .Withdraw => 1
  | .Swap => 2

/-- `PoolState::LEN`, written exactly as in the source. -/
def PoolState.LEN : Nat := 8 + 10 * 32 + 1 * 5 + 8 * 7 + 8 * 31

/-- `PoolState::get_status_by_bit`:
`let status = 1u8 << (bit as u8); self.status.bitand(status) == 0`. -/
def PoolState.get_status_by_bit (ps : PoolState) (bit : PoolStatusBitIndex) : Bool :=
  ps.status &&& (1 <<< bit.asU8) == 0

/-- `PoolState::vault_amount_without_fee`: both fee sums are unchecked
`u64` additions (wrapping modulo `2^64` on overflow), each subtraction is
`checked_sub(..).unwrap()`, so an underflow panics. -/
def PoolState.vault_amount_without_fee (ps : PoolState) (vault_0 vault_1 : Nat) :
    Outcome (Nat × Nat) :=
  match u64checked_sub vault_0 ((ps.protocol_fees_token_0 + ps.fund_fees_token_0) % U64_MOD),
        u64checked_sub vault_1 ((ps.protocol_fees_token_1 + ps.fund_fees_token_1) % U64_MOD) with
  | some a, some b => .ok (a, b)
  | _, _ => .panic

/-! ## Anchor account decoding of `PoolState`

`PoolState::try_deserialize` (generated by anchor for `#[account]`):
an 8-byte discriminator check followed by a borsh read of every field in
declaration order, little-endian integers, each read failing on
insufficient bytes.  Trailing bytes after the declared fields are
tolerated (borsh `deserialize` on a slice). -/

/-- Typed decode failures at the codec boundary (anchor error kinds). -/
inductive DecodeError where
  | discriminatorNotFound
  | discriminatorMismatch
  | didNotDeserialize
deriving DecidableEq, Repr

/-- The fixed 8-byte anchor account discriminator of `PoolState`
(a sha256 prefix generated by the `#[account]` macro; its concrete bytes
are immaterial to every property below, only that it is a fixed 8-byte
tag). -/
def poolDiscriminator : List Nat := [247, 237, 227, 245, 215, 195, 222, 70]

/-- Little-endian byte list to natural number. -/
def leBytesToNat (bs : List Nat) : Nat :=
  bs.foldr (fun b acc => b + 256 * acc) 0

/-- The `n` bytes at offset `off`. -/
def bytesAt (off n : Nat) (bs : List Nat) : List Nat :=
  (bs.drop off).take n

/-- The byte (`u8`) at offset `off`. -/
def u8At (off : Nat) (bs : List Nat) : Nat :=
  bs.getD off 0

/-- The little-endian `u64` at offset `off`. -/
def u64At (off : Nat) (bs : List Nat) : Nat :=
  leBytesToNat (bytesAt off 8 bs)

/-- Total byte size of the borsh-encoded `PoolState` fields
(without the 8-byte discriminator): `10*32 + 5*1 + 7*8 + 31*8`. -/
def poolFieldsLen : Nat := 10 * 32 + 5 * 1 + 7 * 8 + 31 * 8

/-- Borsh read of the `PoolState` fields in declaration order.  Every
field has a fixed size, so the sequential borsh reads succeed exactly
when at least `poolFieldsLen` bytes are present and each field is the
slice at its cumulative offset; this definition spells the reads out by
offset (pubkeys at `0, 32, ..., 288`; the five `u8` at `320..324`; the
seven little-endian `u64` at `325, 333, ..., 373`; the `[u64; 31]`
padding at `381`). -/
def decodePoolFields (bs : List Nat) : Option PoolState :=
  if bs.length < poolFieldsLen then none
  else some {
    amm_config := bytesAt 0 32 bs,
    pool_creator := bytesAt 32 32 bs,
    token_0_vault := bytesAt 64 32 bs,
    token_1_vault := bytesAt 96 32 bs,
    lp_mint := bytesAt 128 32 bs,
    token_0_mint := bytesAt 160 32 bs,
    token_1_mint := bytesAt 192 32 bs,
    token_0_program := bytesAt 224 32 bs,
    token_1_program := bytesAt 256 32 bs,
    observation_key := bytesAt 288 32 bs,
    auth_bump := u8At 320 bs,
    status := u8At 321 bs,
    lp_mint_decimals := u8At 322 bs,
    mint_0_decimals := u8At 323 bs,
    mint_1_decimals := u8At 324 bs,
    lp_supply := u64At 325 bs,
    protocol_fees_token_0 := u64At 333 bs,
    protocol_fees_token_1 := u64At 341 bs,
    fund_fees_token_0 := u64At 349 bs,
    fund_fees_token_1 := u64At 357 bs,
    open_time := u64At 365 bs,
    recent_epoch := u64At 373 bs,
    padding := (List.range 31).map (fun i => u64At (381 + 8 * i) bs) }

/-- `PoolState::try_deserialize`: discriminator check, then borsh. -/
def PoolState.try_deserialize (data : List Nat) : Except DecodeError PoolState :=
  if data.length < 8 then .error .discriminatorNotFound
  else if data.take 8 ≠ poolDiscriminator then .error .discriminatorMismatch
  else
    match decodePoolFields (data.drop 8) with
    | none => .error .didNotDeserialize
    | some ps => .ok ps

/-! ## The constant-product swap curve

Modelled from the spec: the `calculator`, `constant_product` and `fees`
modules of `sega-cp-swap` are referenced by `lib.rs` but their sources
are not under `src/`.  Per the spec (§4.2): rate numerators over the
denominator 1,000,000; the trade fee is deducted from the input before
the curve; the protocol and fund fees are carved out of the trade fee;
all arithmetic is truncating 128-bit unsigned; the result is `None` on
overflow, division by zero, zero reserves, or non-positive output. -/

/-- The fee-rate denominator (spec §4.2: 1,000,000). -/
def FEE_RATE_DENOMINATOR : Nat := 1000000

namespace Fees

/-- Modelled from the spec: the trade fee on the input amount,
`amount * trade_fee_rate / FEE_RATE_DENOMINATOR`, truncating; the
`u128` checked multiplication is `none` on overflow. -/
def trading_fee (amount trade_fee_rate : Nat) : Option Nat :=
  if amount * trade_fee_rate < U128_MOD
  then some (amount * trade_fee_rate / FEE_RATE_DENOMINATOR) else none

/-- Modelled from the spec: the protocol share of the trade fee,
`trade_fee * protocol_fee_rate / FEE_RATE_DENOMINATOR`, truncating,
with a checked `u128` multiplication. -/
def protocol_fee (trade_fee protocol_fee_rate : Nat) : Option Nat :=
  if trade_fee * protocol_fee_rate < U128_MOD
  then some (trade_fee * protocol_fee_rate / FEE_RATE_DENOMINATOR) else none

/-- Modelled from the spec: the fund share of the trade fee, with a
checked `u128` multiplication. -/
def fund_fee (trade_fee fund_fee_rate : Nat) : Option Nat :=
  if trade_fee * fund_fee_rate < U128_MOD
  then some (trade_fee * fund_fee_rate / FEE_RATE_DENOMINATOR) else none

end Fees

/-- The result of a swap computation (spec §4.2 `SwapResult`). -/
structure SwapResult where
  source_amount_swapped : Nat
  destination_amount_swapped : Nat
  trade_fee : Nat
  protocol_fee : Nat
  fund_fee : Nat
deriving DecidableEq, Repr

namespace ConstantProductCurve

/-- Modelled from the spec: the fee-free constant-product output
`delta_y = delta_x * y / (x + delta_x)` in checked `u128` arithmetic —
the numerator multiplication and denominator addition are checked
(`none` past `2^128`), and a zero denominator is a checked-division
failure. -/
def swap_base_input_without_fees (source_amount swap_source_amount swap_destination_amount : Nat) :
    Option Nat :=
  if source_amount * swap_destination_amount < U128_MOD then
    if swap_source_amount + source_amount < U128_MOD then
      if swap_source_amount + source_amount = 0 then none
      else some (source_amount * swap_destination_amount /
        (swap_source_amount + source_amount))
    else none
  else none

end ConstantProductCurve

namespace CurveCalculator

/-- Modelled from the spec: `CurveCalculator::swap_base_input`.  The
trade fee is taken from the input first, the protocol and fund fees are
computed from that trade fee, the curve is applied to the input net of
the trade fee, and the result is `None` on zero reserves, any overflow,
an underflowing fee subtraction, division by zero, or a non-positive
output. -/
def swap_base_input (source_amount swap_source_amount swap_destination_amount
    trade_fee_rate protocol_fee_rate fund_fee_rate : Nat) : Option SwapResult :=
  if swap_source_amount = 0 ∨ swap_destination_amount = 0 then none
  else
    (Fees.trading_fee source_amount trade_fee_rate).bind fun tf =>
    (Fees.protocol_fee tf protocol_fee_rate).bind fun pf =>
    (Fees.fund_fee tf fund_fee_rate).bind fun ff =>
    if source_amount < tf then none
    else
      (ConstantProductCurve.swap_base_input_without_fees
        (source_amount - tf) swap_source_amount swap_destination_amount).bind fun dest =>
      if dest = 0 then none
      else some {
        source_amount_swapped := source_amount,
        destination_amount_swapped := dest,
        trade_fee := tf, protocol_fee := pf, fund_fee := ff }

end CurveCalculator

/-! ## Mints, transfer fees, metadata, client -/

/-- Modelled from the spec: the transfer-fee extension of a token-2022
mint.  The epoch-indexed fee computation lives in the external
`spl-token-2022` crate; it is modelled as a fallible function from
`(epoch, amount)` to a fee, `none` when the computation cannot be
completed (spec §4.2). -/
structure TransferFeeConfig where
  calculate_epoch_fee : Nat → Nat → Option Nat

/-- Modelled from the spec: a decoded mint record; it carries an
optional transfer-fee extension (spec §3 `MintRecord`). -/
structure MintRecord where
  transferFeeConfig : Option TransferFeeConfig

/-- A decoded vault (token account): raw balance and frozen flag
(spec §3 `TokenAccountRecord`; `spl_token_2022::state::Account`). -/
structure TokenAccountRecord where
  amount : Nat
  frozen : Bool
deriving DecidableEq, Repr

/-- Modelled from the spec: `AmmConfig` (the fee-config record); the
`amm_config.rs` source is not under `src/`.  Only the three fee-rate
numerators are consumed by the adapter. -/
structure AmmConfig where
  trade_fee_rate : Nat
  protocol_fee_rate : Nat
  fund_fee_rate : Nat
deriving DecidableEq, Repr

/-- Modelled from the spec: the `PoolMetadata` transport value (its
defining module is not under `src/`).  The named `extra` entries the
Sega adapter reads and writes are explicit optional fields; an absent
field models an absent map key. -/
structure PoolMetadata where
  pool_address : Addr
  base_mint : Addr
  quote_mint : Addr
  base_reserve : Option ℚ
  quote_reserve : Option ℚ
  trade_fee : Option ℚ
  is_trading : Option Bool
  open_time : Option ℚ
  trade_fee_rate : Option ℚ
  protocol_fee_rate : Option ℚ
  fund_fee_rate : Option ℚ
deriving DecidableEq

/-- The abstract ledger reader as the Sega adapter uses it.  Each call
is `client.get_account_with_commitment(addr).ok()?.value`: the outer
`Except Unit` is an RPC failure, the `Option` is a missing account, the
inner `Except DecodeError` is the decode of the fetched bytes (the pool
account is kept at the byte level because its layout is in the repo;
fee-config, mint and vault records are supplied decoded-or-failed
because their layouts live outside `src/`). -/
structure Client where
  pool : Except Unit (Option (List Nat))
  getAmmConfig : Addr → Except Unit (Option (Except DecodeError AmmConfig))
  getMint : Addr → Except Unit (Option (Except DecodeError MintRecord))
  getTokenAccount : Addr → Except Unit (Option (Except DecodeError TokenAccountRecord))

/-! ## `fetch_pool_metadata` (`okx/src/sega.rs`) -/

/-- The net-reserve computation of `fetch_pool_metadata` (lines
369-376): `vault_amount.checked_sub(protocol_fees + fund_fees)`.  The
subtraction is checked and non-wrapping; the inner fee addition is an
unchecked `u64` addition and wraps modulo `2^64`. -/
def netReserve (bal pFees fFees : Nat) : Option Nat :=
  u64checked_sub bal ((pFees + fFees) % U64_MOD)

/-- `fetch_pool_metadata` from `okx/src/sega.rs`, modelled on its return
value (the cache insertions are side effects that do not feed back into
it).  `PoolState::try_deserialize(..).unwrap()` and
`AmmConfig::try_deserialize(..).unwrap()` panic on a decode failure;
mint and vault unpacking uses `.ok()?`; a frozen vault short-circuits to
`none` through `.context(..).ok()?`; an underflowing net-reserve
subtraction leaves that reserve `none` inside a `some` metadata. -/
def fetch_pool_metadata (pool_address : Addr) (c : Client) :
    Outcome (Option PoolMetadata) :=
  match c.pool with
  | .error _ => .ok none
  | .ok none => .ok none
  | .ok (some data) =>
    match PoolState.try_deserialize data with
    | .error _ => .panic
    | .ok ps =>
      match c.getAmmConfig ps.amm_config with
      | .error _ => .ok none
      | .ok none => .ok none
      | .ok (some (.error _)) => .panic
      | .ok (some (.ok cfg)) =>
        match c.getMint ps.token_0_mint with
        | .error _ => .ok none
        | .ok none => .ok none
        | .ok (some (.error _)) => .ok none
        | .ok (some (.ok _mint0)) =>
          match c.getMint ps.token_1_mint with
          | .error _ => .ok none
          | .ok none => .ok none
          | .ok (some (.error _)) => .ok none
          | .ok (some (.ok _mint1)) =>
            match c.getTokenAccount ps.token_0_vault with
            | .error _ => .ok none
            | .ok none => .ok none
            | .ok (some (.error _)) => .ok none
            | .ok (some (.ok vault0)) =>
              match c.getTokenAccount ps.token_1_vault with
              | .error _ => .ok none
              | .ok none => .ok none
              | .ok (some (.error _)) => .ok none
              | .ok (some (.ok vault1)) =>
                if vault0.frozen then .ok none
                else if vault1.frozen then .ok none
                else
                  .ok (some {
                    pool_address := pool_address,
                    base_mint := ps.token_0_mint,
                    quote_mint := ps.token_1_mint,
                    base_reserve := Option.map (fun v : Nat => (v : ℚ))
                      (netReserve vault0.amount ps.protocol_fees_token_0
                        ps.fund_fees_token_0),
                    quote_reserve := Option.map (fun v : Nat => (v : ℚ))
                      (netReserve vault1.amount ps.protocol_fees_token_1
                        ps.fund_fees_token_1),
                    trade_fee := none,
                    is_trading := some (ps.get_status_by_bit .Swap),
                    open_time := some ((ps.open_time : ℚ)),
                    trade_fee_rate := some ((cfg.trade_fee_rate : ℚ)),
                    protocol_fee_rate := some ((cfg.protocol_fee_rate : ℚ)),
                    fund_fee_rate := some ((cfg.fund_fee_rate : ℚ)) })

/-! ## `quote` (`okx/src/sega.rs`) -/

/-- Truncation of a rational toward zero, as an integer (the rounding of
every Rust float-to-integer `as` cast). -/
def ratTrunc (q : ℚ) : Int :=
  if q < 0 then -((((-q.num).toNat / q.den : Nat) : Int))
  else (((q.num.toNat / q.den : Nat) : Int))

/-- Rust `f64 as u64`: truncation toward zero, saturating at the `u64`
range (negative values go to 0). -/
def f64AsU64 (q : ℚ) : Nat :=
  if q ≤ 0 then 0 else min (q.num.toNat / q.den) (U64_MOD - 1)

/-- Rust `f64 as u128`: truncation toward zero, saturating. -/
def f64AsU128 (q : ℚ) : Nat :=
  if q ≤ 0 then 0 else min (q.num.toNat / q.den) (U128_MOD - 1)

/-- Rust `f64 as i64`: truncation toward zero, saturating at the `i64`
bounds. -/
def f64AsI64 (q : ℚ) : Int :=
  max (-(2 ^ 63)) (min (ratTrunc q) (2 ^ 63 - 1))

/-- Rust `i64 as u64`: reinterpretation modulo `2^64`. -/
def i64AsU64 (i : Int) : Nat :=
  (i % (U64_MOD : Int)).toNat

/-- The per-leg transfer-fee deduction of `quote`: 0 when the mint has
no transfer-fee extension, otherwise
`calculate_epoch_fee(epoch, amount).unwrap_or(0)` — a failed fee
computation charges nothing. -/
def transferFeeDeduction (m : MintRecord) (epoch amount : Nat) : Nat :=
  match m.transferFeeConfig with
  | none => 0
  | some cfg => (cfg.calculate_epoch_fee epoch amount).getD 0

/-- `quote` from `okx/src/sega.rs`.  `now` is
`Clock::get().unwrap().unix_timestamp`; `mintMap` is the shared
`TOKEN_MINT_MAP` cache, whose `.get(..).unwrap()` panics on a missing
entry.  `f64` amounts are exact rationals; every `as` cast is modelled
by its saturating/truncating counterpart above. -/
def quote (now : Int) (mintMap : Addr → Option MintRecord)
    (amount_in : ℚ) (metadata : PoolMetadata) : Outcome ℚ :=
  if amount_in ≤ 0 then .ok 0
  else
    let is_trading := metadata.is_trading.getD false
    let epoch : Int := now
    let open_time : Int := f64AsI64 (metadata.open_time.getD 0)
    if is_trading = false ∨ epoch < open_time then .ok 0
    else
      match mintMap metadata.base_mint with
      | none => .panic
      | some mint0 =>
        let token_0_transfer_fee := transferFeeDeduction mint0 (i64AsU64 epoch) (f64AsU64 amount_in)
        let actual_amount_in := f64AsU64 amount_in - token_0_transfer_fee
        if actual_amount_in = 0 then .ok 0
        else
          let trade_fee_rate := f64AsU64 (metadata.trade_fee_rate.getD 0)
          let protocol_fee_rate := f64AsU64 (metadata.protocol_fee_rate.getD 0)
          let fund_fee_rate := f64AsU64 (metadata.fund_fee_rate.getD 0)
          let total_token_0_amount := f64AsU128 (metadata.base_reserve.getD 0)
          let total_token_1_amount := f64AsU128 (metadata.quote_reserve.getD 0)
          match CurveCalculator.swap_base_input actual_amount_in
              total_token_0_amount total_token_1_amount
              trade_fee_rate protocol_fee_rate fund_fee_rate with
          | none => .ok 0
          | some swap_result =>
            let amount_out := swap_result.destination_amount_swapped % U64_MOD
            match mintMap metadata.quote_mint with
            | none => .panic
            | some mint1 =>
              let token_1_transfer_fee := transferFeeDeduction mint1 (i64AsU64 epoch) amount_out
              let actual_amount_out := amount_out - token_1_transfer_fee
              .ok ((actual_amount_out : ℚ))

/-! ## `fetch_pool_addresses` (`okx/src/sega.rs`) -/

/-- `fetch_pool_addresses`: a program-account scan filtered by
`RpcFilterType::DataSize(PoolState::LEN)`; an RPC failure is logged and
degrades to the empty list; otherwise the account keys are returned.
`scan` is the abstract `get_program_accounts` capability, indexed by the
data-size filter. -/
def fetch_pool_addresses (scan : Nat → Except Unit (List (Addr × List Nat))) : List Addr :=
  match scan PoolState.LEN with
  | .error _ => []
  | .ok accounts => accounts.map Prod.fst

/-! ## Concrete fixtures used by witnesses and counterexamples -/

/-- The all-zero 32-byte address. -/
def zeroKey : Addr := List.replicate 32 0

/-- A well-formed pool account: valid discriminator, all fields zero. -/
def poolBytesOk : List Nat := poolDiscriminator ++ List.replicate 629 0

/-- A well-formed pool account whose `protocol_fees_token_0` is 1 and
every other field zero (byte 333 after the discriminator is the low byte
of `protocol_fees_token_0`). -/
def poolBytesUnderflow : List Nat :=
  poolDiscriminator ++ List.replicate 333 0 ++ 1 :: List.replicate 295 0

/-- A mint with no transfer-fee extension. -/
def noFeeMint : MintRecord := ⟨none⟩

/-- A mint whose transfer-fee computation always fails. -/
def failingFeeMint : MintRecord := ⟨some ⟨fun _ _ => none⟩⟩

/-- The decoded form of `poolBytesOk`. -/
def psOk : PoolState := {
  amm_config := zeroKey, pool_creator := zeroKey,
  token_0_vault := zeroKey, token_1_vault := zeroKey,
  lp_mint := zeroKey, token_0_mint := zeroKey, token_1_mint := zeroKey,
  token_0_program := zeroKey, token_1_program := zeroKey,
  observation_key := zeroKey,
  auth_bump := 0, status := 0, lp_mint_decimals := 0,
  mint_0_decimals := 0, mint_1_decimals := 0,
  lp_supply := 0, protocol_fees_token_0 := 0, protocol_fees_token_1 := 0,
  fund_fees_token_0 := 0, fund_fees_token_1 := 0,
  open_time := 0, recent_epoch := 0, padding := List.replicate 31 0 }

/-- The decoded form of `poolBytesUnderflow`. -/
def psUnderflow : PoolState := { psOk with protocol_fees_token_0 := 1 }

/-- Pool state whose token-0 fee counters sum to `2^64`, wrapping to 0. -/
def psWrap : PoolState := { psOk with
  protocol_fees_token_0 := 2 ^ 64 - 1, fund_fees_token_0 := 1 }

/-- Pool state with small nonzero fee counters. -/
def psFees : PoolState := { psOk with
  protocol_fees_token_0 := 10, fund_fees_token_0 := 20, protocol_fees_token_1 := 5 }

/-- A client for which every fetch succeeds: zero-field pool, zero fee
rates, fee-free mints, unfrozen vaults holding 1,000,000. -/
def cOk : Client := {
  pool := .ok (some poolBytesOk),
  getAmmConfig := fun _ => .ok (some (.ok ⟨0, 0, 0⟩)),
  getMint := fun _ => .ok (some (.ok noFeeMint)),
  getTokenAccount := fun _ => .ok (some (.ok ⟨1000000, false⟩)) }

/-- A client whose pool has `protocol_fees_token_0 = 1` but whose
(unfrozen) vaults hold balance 0: the token-0 net-reserve subtraction
underflows. -/
def cUnderflow : Client := {
  pool := .ok (some poolBytesUnderflow),
  getAmmConfig := fun _ => .ok (some (.ok ⟨0, 0, 0⟩)),
  getMint := fun _ => .ok (some (.ok noFeeMint)),
  getTokenAccount := fun _ => .ok (some (.ok ⟨0, false⟩)) }

/-- A client whose pool account is missing. -/
def cNoPool : Client := {
  pool := .ok none,
  getAmmConfig := fun _ => .ok none,
  getMint := fun _ => .ok none,
  getTokenAccount := fun _ => .ok none }

/-- A client whose pool account holds 637 zero bytes: the right data
size, but a discriminator that does not match. -/
def cBadPoolData : Client := {
  pool := .ok (some (List.replicate PoolState.LEN 0)),
  getAmmConfig := fun _ => .ok none,
  getMint := fun _ => .ok none,
  getTokenAccount := fun _ => .ok none }

/-- The metadata `fetch_pool_metadata` produces from `cOk`. -/
def mdOk : PoolMetadata := {
  pool_address := [9], base_mint := zeroKey, quote_mint := zeroKey,
  base_reserve := some 1000000, quote_reserve := some 1000000,
  trade_fee := none, is_trading := some true, open_time := some 0,
  trade_fee_rate := some 0, protocol_fee_rate := some 0, fund_fee_rate := some 0 }

/-- The metadata `fetch_pool_metadata` produces from `cUnderflow`: a
`some` value whose base reserve is absent. -/
def mdUnderflow : PoolMetadata := {
  pool_address := [7], base_mint := zeroKey, quote_mint := zeroKey,
  base_reserve := none, quote_reserve := some 0,
  trade_fee := none, is_trading := some true, open_time := some 0,
  trade_fee_rate := some 0, protocol_fee_rate := some 0, fund_fee_rate := some 0 }

/-- A tradable metadata value whose `open_time` is the fractional
number 5.5 (representable exactly in `f64`). -/
def mdC1 : PoolMetadata := {
  pool_address := [7], base_mint := [0], quote_mint := [1],
  base_reserve := some 1000000, quote_reserve := some 2000000,
  trade_fee := none, is_trading := some true, open_time := some (mkRat 11 2),
  trade_fee_rate := some 0, protocol_fee_rate := some 0, fund_fee_rate := some 0 }

/-- A mint cache holding fee-free mints for `mdC1`'s two legs. -/
def mmC1 : Addr → Option MintRecord := fun a =>
  if a = [0] then some noFeeMint else if a = [1] then some noFeeMint else none

/-! # Theorems -/

/-! ## Characterization of a successful swap (shared by C3 and C4) -/

/-- `trading_fee` succeeds exactly on an in-range product, giving the
truncated fee. -/
theorem trading_fee_eq_some {a t v : Nat} :
    Fees.trading_fee a t = some v ↔
    a * t < U128_MOD ∧ v = a * t / FEE_RATE_DENOMINATOR := by
  unfold Fees.trading_fee
  split_ifs with h1
  · constructor
    · intro h
      exact ⟨h1, (Option.some.inj h).symm⟩
    · intro h
      rw [h.2]
  · simp [h1]

/-- `protocol_fee` succeeds exactly on an in-range product. -/
theorem protocol_fee_eq_some {a p v : Nat} :
    Fees.protocol_fee a p = some v ↔
    a * p < U128_MOD ∧ v = a * p / FEE_RATE_DENOMINATOR := by
  unfold Fees.protocol_fee
  split_ifs with h1
  · constructor
    · intro h
      exact ⟨h1, (Option.some.inj h).symm⟩
    · intro h
      rw [h.2]
  · simp [h1]

/-- `fund_fee` succeeds exactly on an in-range product. -/
theorem fund_fee_eq_some {a f v : Nat} :
    Fees.fund_fee a f = some v ↔
    a * f < U128_MOD ∧ v = a * f / FEE_RATE_DENOMINATOR := by
  unfold Fees.fund_fee
  split_ifs with h1
  · constructor
    · intro h
      exact ⟨h1, (Option.some.inj h).symm⟩
    · intro h
      rw [h.2]
  · simp [h1]

/-- `swap_base_input_without_fees` succeeds exactly when every checked
step is in range, giving the truncated curve output. -/
theorem swap_without_fees_eq_some {s x y v : Nat} :
    ConstantProductCurve.swap_base_input_without_fees s x y = some v ↔
    s * y < U128_MOD ∧ x + s < U128_MOD ∧ 0 < x + s ∧
    v = s * y / (x + s) := by
  unfold ConstantProductCurve.swap_base_input_without_fees
  split_ifs with h1 h2 h3
  · simp [h3]
  · constructor
    · intro h
      exact ⟨h1, h2, Nat.pos_of_ne_zero h3, (Option.some.inj h).symm⟩
    · intro h
      rw [h.2.2.2]
  · simp [h2]
  · simp [h1]

/-- Everything a `some` result of `swap_base_input` pins down: nonzero
reserves, in-range intermediate products, the three fee equations, and
the curve value on the input net of the trade fee. -/
theorem swap_base_input_some_spec {src x y t p f : Nat} {r : SwapResult}
    (h : CurveCalculator.swap_base_input src x y t p f = some r) :
    0 < x ∧ 0 < y ∧
    src * t < U128_MOD ∧
    r.trade_fee = src * t / FEE_RATE_DENOMINATOR ∧
    r.trade_fee ≤ src ∧
    r.trade_fee * p < U128_MOD ∧
    r.protocol_fee = r.trade_fee * p / FEE_RATE_DENOMINATOR ∧
    r.trade_fee * f < U128_MOD ∧
    r.fund_fee = r.trade_fee * f / FEE_RATE_DENOMINATOR ∧
    (src - r.trade_fee) * y < U128_MOD ∧
    x + (src - r.trade_fee) < U128_MOD ∧
    r.destination_amount_swapped =
      (src - r.trade_fee) * y / (x + (src - r.trade_fee)) ∧
    0 < r.destination_amount_swapped ∧
    r.source_amount_swapped = src := by
  unfold CurveCalculator.swap_base_input at h
  by_cases hxy : x = 0 ∨ y = 0
  · rw [if_pos hxy] at h
    exact absurd h (by simp)
  rw [if_neg hxy] at h
  push_neg at hxy
  simp only [Option.bind_eq_some] at h
  obtain ⟨tf, htf, pf, hpf, ff, hff, h⟩ := h
  by_cases hlt : src < tf
  · rw [if_pos hlt] at h
    exact absurd h (by simp)
  rw [if_neg hlt] at h
  simp only [Option.bind_eq_some] at h
  obtain ⟨dest, hsw, h⟩ := h
  by_cases hd : dest = 0
  · rw [if_pos hd] at h
    exact absurd h (by simp)
  rw [if_neg hd] at h
  obtain rfl : (⟨src, dest, tf, pf, ff⟩ : SwapResult) = r := Option.some.inj h
  obtain ⟨h1, rfl⟩ := trading_fee_eq_some.mp htf
  obtain ⟨h2, rfl⟩ := protocol_fee_eq_some.mp hpf
  obtain ⟨h3, rfl⟩ := fund_fee_eq_some.mp hff
  obtain ⟨h4, h5, h6, rfl⟩ := swap_without_fees_eq_some.mp hsw
  exact ⟨Nat.pos_of_ne_zero hxy.1, Nat.pos_of_ne_zero hxy.2, h1, rfl,
    not_lt.mp hlt, h2, rfl, h3, rfl, h4, h5, rfl,
    Nat.pos_of_ne_zero hd, rfl⟩

/-! ## C3: fee ordering in the swap computation -/

/-- Claim C3: whenever `swap_base_input` produces a result, the trade
fee is `input * trade_fee_rate / 1_000_000`, taken from the input
before the constant-product curve is applied (the curve sees exactly
`input - trade_fee`), and the protocol and fund fees are computed from
that trade fee — not from the principal input, all of which is
consumed (`source_amount_swapped = input`). -/
theorem swap_base_input_fee_order (src x y t p f : Nat) (r : SwapResult)
    (h : CurveCalculator.swap_base_input src x y t p f = some r) :
    r.trade_fee = src * t / FEE_RATE_DENOMINATOR ∧
    r.trade_fee ≤ src ∧
    ConstantProductCurve.swap_base_input_without_fees (src - r.trade_fee) x y =
      some r.destination_amount_swapped ∧
    r.protocol_fee = r.trade_fee * p / FEE_RATE_DENOMINATOR ∧
    r.fund_fee = r.trade_fee * f / FEE_RATE_DENOMINATOR ∧
    r.source_amount_swapped = src := by
  obtain ⟨hx, _, _, htf, hle, _, hpf, _, hff, hny, hxn, hdest, _, hsrc⟩ :=
    swap_base_input_some_spec h
  refine ⟨htf, hle, ?_, hpf, hff, hsrc⟩
  exact swap_without_fees_eq_some.mpr ⟨hny, hxn, by omega, hdest⟩

/-- Claim C3 witness: the fee-order theorem evaluated at input 10,000
against reserves (1,000,000, 2,000,000) with rates
(2500, 100000, 50000): trade fee 25, protocol fee 2, fund fee 1,
output 19,752. -/
theorem swap_base_input_fee_order_witness :
    (⟨10000, 19752, 25, 2, 1⟩ : SwapResult).trade_fee =
      10000 * 2500 / FEE_RATE_DENOMINATOR ∧
    (⟨10000, 19752, 25, 2, 1⟩ : SwapResult).trade_fee ≤ 10000 ∧
    ConstantProductCurve.swap_base_input_without_fees
      (10000 - (⟨10000, 19752, 25, 2, 1⟩ : SwapResult).trade_fee) 1000000 2000000 =
      some (⟨10000, 19752, 25, 2, 1⟩ : SwapResult).destination_amount_swapped ∧
    (⟨10000, 19752, 25, 2, 1⟩ : SwapResult).protocol_fee =
      (⟨10000, 19752, 25, 2, 1⟩ : SwapResult).trade_fee * 100000 / FEE_RATE_DENOMINATOR ∧
    (⟨10000, 19752, 25, 2, 1⟩ : SwapResult).fund_fee =
      (⟨10000, 19752, 25, 2, 1⟩ : SwapResult).trade_fee * 50000 / FEE_RATE_DENOMINATOR ∧
    (⟨10000, 19752, 25, 2, 1⟩ : SwapResult).source_amount_swapped = 10000 :=
  swap_base_input_fee_order 10000 1000000 2000000 2500 100000 50000
    ⟨10000, 19752, 25, 2, 1⟩ (by decide)

/-! ## C4: monotonicity of the swap output -/

/-- With a rate at most the denominator, the truncated fee grows by at
most the growth of the amount. -/
theorem trading_fee_growth_le {a b t D : Nat} (hD : 0 < D) (ht : t ≤ D)
    (hab : a ≤ b) : b * t / D ≤ a * t / D + (b - a) := by
  have h2 : b * t = a * t + (b - a) * t := by
    rw [← Nat.add_mul]
    congr 1
    omega
  have h3 : (b - a) * t ≤ (b - a) * D := Nat.mul_le_mul_left _ ht
  have h1 : b * t ≤ a * t + (b - a) * D := by omega
  calc b * t / D ≤ (a * t + (b - a) * D) / D := Nat.div_le_div_right h1
    _ = a * t / D + (b - a) := Nat.add_mul_div_right _ _ hD

/-- The truncated constant-product output `m * y / (x + m)` is monotone
in the net input `m`. -/
theorem curve_output_mono (x y : Nat) {m n : Nat} (hmn : m ≤ n) :
    m * y / (x + m) ≤ n * y / (x + n) := by
  rcases Nat.eq_zero_or_pos m with rfl | hm
  · simp
  have hn : 0 < n := lt_of_lt_of_le hm hmn
  have hxn : 0 < x + n := by omega
  have hq : m * y / (x + m) ≤ y := by
    calc m * y / (x + m) ≤ m * y / m :=
          Nat.div_le_div_left (by omega) hm
      _ = y := Nat.mul_div_cancel_left y hm
  rw [Nat.le_div_iff_mul_le hxn]
  have h1 : m * y / (x + m) * (x + m) ≤ m * y := Nat.div_mul_le_self _ _
  have h2 : m * y / (x + m) * (x + n) =
      m * y / (x + m) * (x + m) + m * y / (x + m) * (n - m) := by
    rw [← Nat.mul_add]
    congr 1
    omega
  have h3 : m * y / (x + m) * (n - m) ≤ y * (n - m) :=
    Nat.mul_le_mul_right _ hq
  have h4 : m * y + y * (n - m) = n * y := by
    have h5 : m + (n - m) = n := by omega
    calc m * y + y * (n - m) = y * (m + (n - m)) := by ring
      _ = n * y := by rw [h5]; ring
  omega

/-- Claim C4: for fixed reserves and fee rates the swap output is
monotone in the input amount — whenever `swap_base_input` returns a
result for inputs `a ≤ b`, the output for `a` is at most the output for
`b`. -/
theorem swap_base_input_monotone (a b x y t p f : Nat) (ra rb : SwapResult)
    (hab : a ≤ b)
    (ha : CurveCalculator.swap_base_input a x y t p f = some ra)
    (hb : CurveCalculator.swap_base_input b x y t p f = some rb) :
    ra.destination_amount_swapped ≤ rb.destination_amount_swapped := by
  obtain ⟨hx, hy, _, htfa, htfa_le, _, _, _, _, _, _, hda, hda_pos, _⟩ :=
    swap_base_input_some_spec ha
  obtain ⟨_, _, _, htfb, htfb_le, _, _, _, _, _, _, hdb, _, _⟩ :=
    swap_base_input_some_spec hb
  have hD : 0 < FEE_RATE_DENOMINATOR := by decide
  have hna : 0 < a - ra.trade_fee := by
    by_contra h0
    push_neg at h0
    have h1 : a - ra.trade_fee = 0 := by omega
    rw [h1] at hda
    simp at hda
    omega
  have hta : a * t / FEE_RATE_DENOMINATOR < a := by
    rw [htfa] at hna htfa_le
    omega
  have ha_pos : 0 < a := by omega
  have htD : t ≤ FEE_RATE_DENOMINATOR := by
    by_contra hcon
    push_neg at hcon
    have h1 : a * FEE_RATE_DENOMINATOR ≤ a * t :=
      Nat.mul_le_mul_left _ (le_of_lt hcon)
    have h2 : a * FEE_RATE_DENOMINATOR / FEE_RATE_DENOMINATOR = a := by
      rw [Nat.mul_comm]
      exact Nat.mul_div_cancel_left a hD
    have h3 : a * FEE_RATE_DENOMINATOR / FEE_RATE_DENOMINATOR ≤
        a * t / FEE_RATE_DENOMINATOR := Nat.div_le_div_right h1
    omega
  have hnet : a - ra.trade_fee ≤ b - rb.trade_fee := by
    have h1 := trading_fee_growth_le hD htD hab
    rw [htfa, htfb]
    omega
  calc ra.destination_amount_swapped
      = (a - ra.trade_fee) * y / (x + (a - ra.trade_fee)) := hda
    _ ≤ (b - rb.trade_fee) * y / (x + (b - rb.trade_fee)) :=
        curve_output_mono x y hnet
    _ = rb.destination_amount_swapped := hdb.symm

/-- Claim C4 witness: the monotonicity theorem at inputs 10,000 and
20,000 against reserves (1,000,000, 2,000,000) and trade-fee rate
2500: outputs 19,752 and 39,119. -/
theorem swap_base_input_monotone_witness :
    CurveCalculator.swap_base_input 10000 1000000 2000000 2500 0 0 =
      some ⟨10000, 19752, 25, 0, 0⟩ ∧
    CurveCalculator.swap_base_input 20000 1000000 2000000 2500 0 0 =
      some ⟨20000, 39119, 50, 0, 0⟩ ∧
    (⟨10000, 19752, 25, 0, 0⟩ : SwapResult).destination_amount_swapped ≤
      (⟨20000, 39119, 50, 0, 0⟩ : SwapResult).destination_amount_swapped :=
  ⟨by decide, by decide,
   swap_base_input_monotone 10000 20000 1000000 2000000 2500 0 0 _ _
     (by decide) (by decide) (by decide)⟩

/-! ## C2: the net-reserve computation -/

/-- Claim C2 (amended): for `u64` values `B`, `P`, `F` whose fee sum
`P + F` does not overflow `u64`, the net reserve computed by
`fetch_pool_metadata` is `B - P - F` when `B ≥ P + F` and `none`
otherwise — the subtraction itself is checked and never wraps.  (The
fee addition `P + F` is an unchecked `u64` addition that wraps modulo
`2^64`, so the no-overflow hypothesis is required; see the
counterexample.) -/
theorem netReserve_checked_spec (B P F : Nat)
    (_hB : B < U64_MOD) (_hP : P < U64_MOD) (_hF : F < U64_MOD)
    (hPF : P + F < U64_MOD) :
    netReserve B P F = if P + F ≤ B then some (B - P - F) else none := by
  unfold netReserve u64checked_sub
  rw [Nat.mod_eq_of_lt hPF]
  by_cases h : B < P + F
  · rw [if_pos h, if_neg (by omega)]
  · rw [if_neg h, if_pos (by omega)]
    congr 1
    omega

/-- Claim C2 witness: the spec theorem evaluated at `B = 100`,
`P = 30`, `F = 20`. -/
theorem netReserve_checked_spec_witness : netReserve 100 30 20 = some 50 :=
  (netReserve_checked_spec 100 30 20 (by decide) (by decide) (by decide)
    (by decide)).trans (by decide)

/-- Claim C2 counterexample: with `B = 5`, `P = 2^64 - 1`, `F = 1` we
have `B < P + F`, so the claim as stated demands an absent reserve; the
code's unchecked fee addition wraps to 0 and the computed reserve is
`some 5`. -/
theorem netReserve_fee_sum_wrap_counterexample :
    ¬ ((2 ^ 64 - 1) + 1 ≤ 5) ∧ netReserve 5 (2 ^ 64 - 1) 1 = some 5 :=
  ⟨by decide, by decide⟩

/-! ## C1: the early-return guards of `quote` -/

/-- Claim C1 (amended): `quote` returns exactly 0 when the input amount
is nonpositive, when `is_trading` is false or absent, or when the
current time is earlier than the metadata's `open_time` truncated
toward zero to an `i64` (the source compares against
`open_time as i64`, so a fractional `open_time` is truncated before the
comparison; see the counterexample). -/
theorem quote_returns_zero_on_guard (now : Int) (mintMap : Addr → Option MintRecord)
    (amount_in : ℚ) (md : PoolMetadata)
    (h : amount_in ≤ 0 ∨ md.is_trading.getD false = false ∨
      now < f64AsI64 (md.open_time.getD 0)) :
    quote now mintMap amount_in md = .ok 0 := by
  simp only [quote]
  by_cases h0 : amount_in ≤ 0
  · rw [if_pos h0]
  rw [if_neg h0]
  rcases h with h | h | h
  · exact absurd h h0
  · rw [if_pos (Or.inl h)]
  · rw [if_pos (Or.inr h)]

/-- Claim C1 witness: the guard theorem applied to a negative input. -/
theorem quote_returns_zero_on_guard_witness :
    ((-1 : ℚ) ≤ 0) ∧ quote 0 mmC1 (-1) mdC1 = .ok 0 :=
  ⟨by norm_num, quote_returns_zero_on_guard 0 mmC1 (-1) mdC1 (Or.inl (by norm_num))⟩

/-- Claim C1 counterexample: `mdC1` has `open_time = 5.5` and is
trading; at current time 5 — which is earlier than 5.5 — `quote` does
not return 0: the code truncates `open_time` to 5 before comparing, so
the trade proceeds and yields 19,801. -/
theorem quote_fractional_open_time_counterexample :
    mdC1.open_time = some (mkRat 11 2) ∧
    ((5 : Int) : ℚ) < mkRat 11 2 ∧
    quote 5 mmC1 10000 mdC1 = .ok 19801 ∧
    Outcome.ok (19801 : ℚ) ≠ Outcome.ok (0 : ℚ) :=
  ⟨by decide, by decide, by decide, by decide⟩

/-! ## C8: transfer-fee fail-open behaviour in `quote` -/

/-- Claim C8: the per-leg transfer-fee deduction is 0 when the mint
carries no transfer-fee extension and 0 when the epoch-fee computation
fails, and a fee-computation failure never makes `quote` itself fail:
with both leg mints present in the cache, `quote` always returns a
value (never panics), for every input and metadata. -/
theorem transfer_fee_fail_open :
    (∀ (m : MintRecord) (epoch amount : Nat), m.transferFeeConfig = none →
      transferFeeDeduction m epoch amount = 0) ∧
    (∀ (m : MintRecord) (cfg : TransferFeeConfig) (epoch amount : Nat),
      m.transferFeeConfig = some cfg →
      cfg.calculate_epoch_fee epoch amount = none →
      transferFeeDeduction m epoch amount = 0) ∧
    (∀ (now : Int) (mm : Addr → Option MintRecord) (a : ℚ) (md : PoolMetadata)
      (m0 m1 : MintRecord),
      mm md.base_mint = some m0 → mm md.quote_mint = some m1 →
      ∃ v, quote now mm a md = .ok v) := by
  refine ⟨?_, ?_, ?_⟩
  · intro m epoch amount hm
    simp only [transferFeeDeduction, hm]
  · intro m cfg epoch amount hm hc
    simp only [transferFeeDeduction, hm, hc, Option.getD_none]
  · intro now mm a md m0 m1 h0 h1
    have hq : quote now mm a md ≠ .panic := by
      simp only [quote]
      by_cases ha : a ≤ 0
      · rw [if_pos ha]
        simp
      rw [if_neg ha]
      by_cases hb : md.is_trading.getD false = false ∨
        now < f64AsI64 (md.open_time.getD 0)
      · rw [if_pos hb]
        simp
      rw [if_neg hb]
      simp only [h0]
      by_cases hc : f64AsU64 a - transferFeeDeduction m0 (i64AsU64 now) (f64AsU64 a) = 0
      · rw [if_pos hc]
        simp
      rw [if_neg hc]
      split
      · simp
      · simp only [h1]
        simp
    cases hq2 : quote now mm a md with
    | panic => exact absurd hq2 hq
    | ok v => exact ⟨v, rfl⟩

/-- Claim C8 witness: a mint with no extension, a mint whose fee
computation fails, and a full quote with both mints cached. -/
theorem transfer_fee_fail_open_witness :
    transferFeeDeduction noFeeMint 3 100 = 0 ∧
    transferFeeDeduction failingFeeMint 3 100 = 0 ∧
    (∃ v, quote 5 mmC1 10000 mdC1 = .ok v) :=
  ⟨transfer_fee_fail_open.1 noFeeMint 3 100 rfl,
   transfer_fee_fail_open.2.1 failingFeeMint ⟨fun _ _ => none⟩ 3 100 rfl rfl,
   transfer_fee_fail_open.2.2 5 mmC1 10000 mdC1 noFeeMint noFeeMint rfl rfl⟩

/-! ## Inversion of a successful metadata fetch (shared by C5 and C7) -/

/-- A `some` metadata result of `fetch_pool_metadata` pins down the
whole fetch chain: every account was present and decoded, both vaults
are unfrozen, and the metadata is exactly the assembled record. -/
theorem fetch_ok_some_spec (pa : Addr) (c : Client) (md : PoolMetadata)
    (h : fetch_pool_metadata pa c = .ok (some md)) :
    ∃ data ps cfg mint0 mint1 vault0 vault1,
      c.pool = .ok (some data) ∧
      PoolState.try_deserialize data = .ok ps ∧
      c.getAmmConfig ps.amm_config = .ok (some (.ok cfg)) ∧
      c.getMint ps.token_0_mint = .ok (some (.ok mint0)) ∧
      c.getMint ps.token_1_mint = .ok (some (.ok mint1)) ∧
      c.getTokenAccount ps.token_0_vault = .ok (some (.ok vault0)) ∧
      c.getTokenAccount ps.token_1_vault = .ok (some (.ok vault1)) ∧
      vault0.frozen = false ∧ vault1.frozen = false ∧
      md = { pool_address := pa, base_mint := ps.token_0_mint,
             quote_mint := ps.token_1_mint,
             base_reserve := Option.map (fun v : Nat => (v : ℚ))
               (netReserve vault0.amount ps.protocol_fees_token_0
                 ps.fund_fees_token_0),
             quote_reserve := Option.map (fun v : Nat => (v : ℚ))
               (netReserve vault1.amount ps.protocol_fees_token_1
                 ps.fund_fees_token_1),
             trade_fee := none,
             is_trading := some (ps.get_status_by_bit .Swap),
             open_time := some ((ps.open_time : ℚ)),
             trade_fee_rate := some ((cfg.trade_fee_rate : ℚ)),
             protocol_fee_rate := some ((cfg.protocol_fee_rate : ℚ)),
             fund_fee_rate := some ((cfg.fund_fee_rate : ℚ)) } := by
  unfold fetch_pool_metadata at h
  cases hpool : c.pool with
  | error e =>
    simp [hpool] at h
  | ok opt =>
    simp only [hpool] at h
    cases opt with
    | none => simp at h
    | some data =>
      cases hdec : PoolState.try_deserialize data with
      | error de =>
        simp [hdec] at h
      | ok ps =>
        simp only [hdec] at h
        cases hcfg : c.getAmmConfig ps.amm_config with
        | error e2 =>
          simp [hcfg] at h
        | ok o2 =>
          simp only [hcfg] at h
          cases o2 with
          | none => simp at h
          | some r2 =>
            cases r2 with
            | error de2 => simp at h
            | ok cfg =>
              cases hm0 : c.getMint ps.token_0_mint with
              | error e3 =>
                simp [hm0] at h
              | ok o3 =>
                simp only [hm0] at h
                cases o3 with
                | none => simp at h
                | some r3 =>
                  cases r3 with
                  | error de3 => simp at h
                  | ok mint0 =>
                    cases hm1 : c.getMint ps.token_1_mint with
                    | error e4 =>
                      simp [hm1] at h
                    | ok o4 =>
                      simp only [hm1] at h
                      cases o4 with
                      | none => simp at h
                      | some r4 =>
                        cases r4 with
                        | error de4 => simp at h
                        | ok mint1 =>
                          cases hv0 : c.getTokenAccount ps.token_0_vault with
                          | error e5 =>
                            simp [hv0] at h
                          | ok o5 =>
                            simp only [hv0] at h
                            cases o5 with
                            | none => simp at h
                            | some r5 =>
                              cases r5 with
                              | error de5 => simp at h
                              | ok vault0 =>
                                cases hv1 : c.getTokenAccount ps.token_1_vault with
                                | error e6 =>
                                  simp [hv1] at h
                                | ok o6 =>
                                  simp only [hv1] at h
                                  cases o6 with
                                  | none => simp at h
                                  | some r6 =>
                                    cases r6 with
                                    | error de6 => simp at h
                                    | ok vault1 =>
                                      dsimp only [] at h
                                      cases hf0 : vault0.frozen with
                                      | true =>
                                        rw [hf0] at h
                                        exact Option.noConfusion (Outcome.ok.inj h)
                                      | false =>
                                        rw [hf0] at h
                                        cases hf1 : vault1.frozen with
                                        | true =>
                                          rw [hf1] at h
                                          exact Option.noConfusion (Outcome.ok.inj h)
                                        | false =>
                                          rw [hf1] at h
                                          exact ⟨data, ps, cfg, mint0, mint1, vault0, vault1,
                                            rfl, hdec, hcfg, hm0, hm1, hv0, hv1, hf0, hf1,
                                            (Option.some.inj (Outcome.ok.inj h)).symm⟩

/-! ## C5: failure modes of `fetch_pool_metadata` -/

/-- Claim C5 (amended): `fetch_pool_metadata` returns `None` when the
pool account is missing, when an RPC read fails, when a mint decode
fails, or when a vault is frozen; a pool or fee-config decode failure
panics instead of returning `None` (the decode result is unwrapped);
and an underflowing net-reserve subtraction does NOT make the call
fail — it yields `Some` metadata whose corresponding reserve is
absent. -/
theorem fetch_pool_metadata_failure_modes :
    (∀ (pa : Addr) (c : Client), c.pool = .ok none →
      fetch_pool_metadata pa c = .ok none) ∧
    (∀ (pa : Addr) (c : Client) (e : Unit), c.pool = .error e →
      fetch_pool_metadata pa c = .ok none) ∧
    (∀ (pa : Addr) (c : Client) (data : List Nat) (err : DecodeError),
      c.pool = .ok (some data) → PoolState.try_deserialize data = .error err →
      fetch_pool_metadata pa c = .panic) ∧
    (∀ (pa : Addr) (c : Client) (data : List Nat) (ps : PoolState) (err : DecodeError),
      c.pool = .ok (some data) → PoolState.try_deserialize data = .ok ps →
      c.getAmmConfig ps.amm_config = .ok (some (.error err)) →
      fetch_pool_metadata pa c = .panic) ∧
    (∀ (pa : Addr) (c : Client) (data : List Nat) (ps : PoolState)
      (cfg : AmmConfig) (err : DecodeError),
      c.pool = .ok (some data) → PoolState.try_deserialize data = .ok ps →
      c.getAmmConfig ps.amm_config = .ok (some (.ok cfg)) →
      c.getMint ps.token_0_mint = .ok (some (.error err)) →
      fetch_pool_metadata pa c = .ok none) ∧
    (∀ (pa : Addr) (c : Client) (data : List Nat) (ps : PoolState)
      (cfg : AmmConfig) (mint0 mint1 : MintRecord) (vault0 : TokenAccountRecord),
      c.pool = .ok (some data) → PoolState.try_deserialize data = .ok ps →
      c.getAmmConfig ps.amm_config = .ok (some (.ok cfg)) →
      c.getMint ps.token_0_mint = .ok (some (.ok mint0)) →
      c.getMint ps.token_1_mint = .ok (some (.ok mint1)) →
      c.getTokenAccount ps.token_0_vault = .ok (some (.ok vault0)) →
      vault0.frozen = true →
      fetch_pool_metadata pa c = .ok none) ∧
    (∀ (pa : Addr) (c : Client) (data : List Nat) (ps : PoolState)
      (cfg : AmmConfig) (mint0 mint1 : MintRecord)
      (vault0 vault1 : TokenAccountRecord),
      c.pool = .ok (some data) → PoolState.try_deserialize data = .ok ps →
      c.getAmmConfig ps.amm_config = .ok (some (.ok cfg)) →
      c.getMint ps.token_0_mint = .ok (some (.ok mint0)) →
      c.getMint ps.token_1_mint = .ok (some (.ok mint1)) →
      c.getTokenAccount ps.token_0_vault = .ok (some (.ok vault0)) →
      c.getTokenAccount ps.token_1_vault = .ok (some (.ok vault1)) →
      vault0.frozen = false → vault1.frozen = false →
      vault0.amount < (ps.protocol_fees_token_0 + ps.fund_fees_token_0) % U64_MOD →
      ∃ md, fetch_pool_metadata pa c = .ok (some md) ∧ md.base_reserve = none) := by
  refine ⟨?_, ?_, ?_, ?_, ?_, ?_, ?_⟩
  · intro pa c h
    simp only [fetch_pool_metadata, h]
  · intro pa c e h
    simp only [fetch_pool_metadata, h]
  · intro pa c data err h1 h2
    simp only [fetch_pool_metadata, h1, h2]
  · intro pa c data ps err h1 h2 h3
    simp only [fetch_pool_metadata, h1, h2, h3]
  · intro pa c data ps cfg err h1 h2 h3 h4
    simp only [fetch_pool_metadata, h1, h2, h3, h4]
  · intro pa c data ps cfg mint0 mint1 vault0 h1 h2 h3 h4 h5 h6 hf
    simp only [fetch_pool_metadata, h1, h2, h3, h4, h5, h6]
    cases hv1 : c.getTokenAccount ps.token_1_vault with
    | error e => rfl
    | ok o =>
      cases o with
      | none => rfl
      | some r =>
        cases r with
        | error de => rfl
        | ok vault1 =>
          dsimp only []
          simp [hf]
  · intro pa c data ps cfg mint0 mint1 vault0 vault1 h1 h2 h3 h4 h5 h6 h7 hf0 hf1 hunder
    have hn : netReserve vault0.amount ps.protocol_fees_token_0 ps.fund_fees_token_0 = none := by
      unfold netReserve u64checked_sub
      exact if_pos hunder
    refine ⟨{ pool_address := pa, base_mint := ps.token_0_mint,
              quote_mint := ps.token_1_mint,
              base_reserve := none,
              quote_reserve := Option.map (fun v : Nat => (v : ℚ))
                (netReserve vault1.amount ps.protocol_fees_token_1
                  ps.fund_fees_token_1),
              trade_fee := none,
              is_trading := some (ps.get_status_by_bit .Swap),
              open_time := some ((ps.open_time : ℚ)),
              trade_fee_rate := some ((cfg.trade_fee_rate : ℚ)),
              protocol_fee_rate := some ((cfg.protocol_fee_rate : ℚ)),
              fund_fee_rate := some ((cfg.fund_fee_rate : ℚ)) }, ?_, rfl⟩
    simp only [fetch_pool_metadata, h1, h2, h3, h4, h5, h6, h7]
    simp [hf0, hf1, hn]

/-- Claim C5 witness: a missing pool account yields `None`; the
underflowing-client chain yields `Some` metadata with an absent base
reserve. -/
theorem fetch_pool_metadata_failure_modes_witness :
    fetch_pool_metadata [1] cNoPool = .ok none ∧
    (∃ md, fetch_pool_metadata [7] cUnderflow = .ok (some md) ∧
      md.base_reserve = none) :=
  ⟨fetch_pool_metadata_failure_modes.1 [1] cNoPool rfl,
   fetch_pool_metadata_failure_modes.2.2.2.2.2.2 [7] cUnderflow
     poolBytesUnderflow psUnderflow ⟨0, 0, 0⟩ noFeeMint noFeeMint
     ⟨0, false⟩ ⟨0, false⟩ rfl (by decide) rfl rfl rfl rfl rfl rfl rfl
     (by decide)⟩

/-- Claim C5 counterexample: with every account present and decodable
and both vaults unfrozen, a net-reserve underflow
(vault balance 0 < fee counters 1) still returns `Some` metadata — the
claim's assertion that an underflow never yields a `Some PoolMetadata`
is false. -/
theorem fetch_pool_metadata_underflow_counterexample :
    psUnderflow.protocol_fees_token_0 + psUnderflow.fund_fees_token_0 = 1 ∧
    fetch_pool_metadata [7] cUnderflow = .ok (some mdUnderflow) ∧
    mdUnderflow.base_reserve = none :=
  ⟨by decide, by decide, by decide⟩

/-! ## C7: the swap status bit -/

/-- Claim C7: `get_status_by_bit(Swap)` is true exactly when bit 2
(value 4) of the status byte is zero, and the `is_trading` value stored
by `fetch_pool_metadata` is exactly this boolean (the logical negation
of the swap-disable bit). -/
theorem swap_status_bit_spec :
    (∀ ps : PoolState,
      (ps.get_status_by_bit .Swap = true ↔ ps.status / 4 % 2 = 0)) ∧
    (∀ (pa : Addr) (c : Client) (data : List Nat) (ps : PoolState)
      (md : PoolMetadata),
      c.pool = .ok (some data) → PoolState.try_deserialize data = .ok ps →
      fetch_pool_metadata pa c = .ok (some md) →
      md.is_trading = some (ps.get_status_by_bit .Swap)) := by
  constructor
  · intro ps
    simp only [PoolState.get_status_by_bit, PoolStatusBitIndex.asU8]
    have h1 : (1 <<< 2 : Nat) = 2 ^ 2 := rfl
    rw [h1, Nat.and_two_pow, Nat.testBit_to_div_mod]
    have h2 : (2 ^ 2 : Nat) = 4 := rfl
    rw [h2]
    rcases Nat.mod_two_eq_zero_or_one (ps.status / 4) with hm | hm <;> simp [hm]
  · intro pa c data ps md hpool hdec hfetch
    obtain ⟨data', ps', cfg, m0, m1, v0, v1, hpool', hdec', _, _, _, _, _, _, _, hmd⟩ :=
      fetch_ok_some_spec pa c md hfetch
    rw [hpool] at hpool'
    obtain rfl : data = data' := Option.some.inj (Except.ok.inj hpool')
    rw [hdec] at hdec'
    obtain rfl : ps = ps' := Except.ok.inj hdec'
    rw [hmd]

/-- Claim C7 witness: the spec theorem on the concrete all-zero pool
(status byte 0: swap enabled, `is_trading = some true`). -/
theorem swap_status_bit_spec_witness :
    PoolState.try_deserialize poolBytesOk = .ok psOk ∧
    fetch_pool_metadata [9] cOk = .ok (some mdOk) ∧
    mdOk.is_trading = some (psOk.get_status_by_bit .Swap) ∧
    (psOk.get_status_by_bit .Swap = true ↔ psOk.status / 4 % 2 = 0) :=
  ⟨by decide, by decide,
   swap_status_bit_spec.2 [9] cOk poolBytesOk psOk mdOk rfl (by decide) (by decide),
   swap_status_bit_spec.1 psOk⟩

/-! ## C6: decoding malformed pool bytes -/

/-- Claim C6 (code bug): decoding does fail with a typed decode error on
a wrong length or a wrong leading tag, but `fetch_pool_metadata` calls
`.unwrap()` on that result, so a present-but-malformed pool account
makes the derivation panic instead of degrading to `None`. -/
theorem fetch_pool_metadata_decode_panics :
    PoolState.try_deserialize (List.replicate PoolState.LEN 0) =
      .error .discriminatorMismatch ∧
    PoolState.try_deserialize [0, 1, 2] = .error .discriminatorNotFound ∧
    fetch_pool_metadata [7] cBadPoolData = .panic :=
  ⟨by decide, by decide, by decide⟩

/-! ## C9: the pool record length and the scan filter -/

/-- Claim C9: `PoolState::LEN` is the 637-byte fixed layout
(8-byte discriminator, ten 32-byte addresses, five 1-byte fields, seven
8-byte integers, 31 8-byte padding words), and `fetch_pool_addresses`
passes exactly this length as the program-scan data-size filter. -/
theorem pool_state_len_spec :
    PoolState.LEN = 8 + 10 * 32 + 5 * 1 + 7 * 8 + 31 * 8 ∧
    PoolState.LEN = 637 ∧
    (∀ (scan : Nat → Except Unit (List (Addr × List Nat))) accounts,
      scan PoolState.LEN = .ok accounts →
      fetch_pool_addresses scan = accounts.map Prod.fst) := by
  refine ⟨by decide, by decide, ?_⟩
  intro scan accounts h
  unfold fetch_pool_addresses
  rw [h]

/-- Claim C9 witness: a scan that answers only the data-size filter 637
is consulted at exactly that size. -/
theorem pool_state_len_spec_witness :
    fetch_pool_addresses
      (fun n => if n = 637 then .ok [([3], [])] else .ok []) = [[3]] :=
  (pool_state_len_spec.2.2
    (fun n => if n = 637 then .ok [([3], [])] else .ok []) [([3], [])]
    (by decide)).trans (by decide)

/-! ## C10: `vault_amount_without_fee` -/

/-- Claim C10 (amended): `vault_amount_without_fee` panics whenever a
vault balance is below the corresponding (wrapping) fee sum
`(protocol + fund) % 2^64`; when neither fee addition overflows `u64`
and neither subtraction underflows it returns exactly
`(v0 - protocol_0 - fund_0, v1 - protocol_1 - fund_1)`.  (The fee
additions are unchecked and wrap modulo `2^64` on overflow, so the
panic condition is stated against the wrapped sums; see the
counterexample.) -/
theorem vault_amount_without_fee_spec (ps : PoolState) (v0 v1 : Nat) :
    ((v0 < (ps.protocol_fees_token_0 + ps.fund_fees_token_0) % U64_MOD ∨
      v1 < (ps.protocol_fees_token_1 + ps.fund_fees_token_1) % U64_MOD) →
      ps.vault_amount_without_fee v0 v1 = .panic) ∧
    (ps.protocol_fees_token_0 + ps.fund_fees_token_0 < U64_MOD →
     ps.protocol_fees_token_1 + ps.fund_fees_token_1 < U64_MOD →
     ps.protocol_fees_token_0 + ps.fund_fees_token_0 ≤ v0 →
     ps.protocol_fees_token_1 + ps.fund_fees_token_1 ≤ v1 →
     ps.vault_amount_without_fee v0 v1 =
       .ok (v0 - ps.protocol_fees_token_0 - ps.fund_fees_token_0,
            v1 - ps.protocol_fees_token_1 - ps.fund_fees_token_1)) := by
  constructor
  · intro h
    unfold PoolState.vault_amount_without_fee u64checked_sub
    split_ifs with h1 h2 <;> try rfl
    · omega
  · intro h1 h2 h3 h4
    unfold PoolState.vault_amount_without_fee u64checked_sub
    rw [Nat.mod_eq_of_lt h1, Nat.mod_eq_of_lt h2,
      if_neg (by omega), if_neg (by omega)]
    simp only [Nat.sub_sub]

/-- Claim C10 witness: the spec theorem evaluated on fee counters
(10, 20) and (5, 0): balances (100, 200) give (70, 195); balance 5 on
the token-0 side panics. -/
theorem vault_amount_without_fee_spec_witness :
    psFees.vault_amount_without_fee 100 200 = .ok (70, 195) ∧
    psFees.vault_amount_without_fee 5 200 = .panic :=
  ⟨((vault_amount_without_fee_spec psFees 100 200).2
      (by decide) (by decide) (by decide) (by decide)).trans (by decide),
   (vault_amount_without_fee_spec psFees 5 200).1 (Or.inl (by decide))⟩

/-- Claim C10 counterexample: with `protocol_fees_token_0 = 2^64 - 1`
and `fund_fees_token_0 = 1` the mathematical fee sum is `2^64 > v0 = 0`,
so the claim as stated demands a panic; the unchecked `u64` addition
wraps to 0 and the function returns `.ok (0, 0)`. -/
theorem vault_amount_without_fee_wrap_counterexample :
    (0 : Nat) < psWrap.protocol_fees_token_0 + psWrap.fund_fees_token_0 ∧
    psWrap.vault_amount_without_fee 0 0 = .ok (0, 0) :=
  ⟨by decide, by decide⟩

end SegaOkx
